import Mathlib

/-!
Formal model of the ESP32 Art-Net vibration motor controller
(`Berlin final/motor/motor.ino`): the debounced ON/OFF state machine,
the link-loss watchdog and the noise-driven amplitude sampler.

Modelling conventions:
* C unsigned integers are `ℕ` reduced modulo the type's width at every
  store (`% 256` for `uint8_t`, `% 4294967296` for `uint32_t`/`unsigned long`);
  `int` values (`currentPwm`, `target`, `smoothed`) are `ℤ`.
* `uint32_t` subtraction (`now - lastDmxMillis`) is `usub32`, the exact
  wraparound difference.
* `float` arithmetic of the smoothing filter is modelled over `ℚ` with
  `round` (round-half-up, which agrees with C's `round` on the nonnegative
  values that occur here).
* External collaborators are oracle inputs: the FastLED noise primitive
  `inoise8` becomes the per-tick input `noiseRaw` (stored into a `uint8_t`,
  hence reduced `% 256`), `random()` becomes the input `rnd`, `millis()`
  the input `now`.  Serial prints and the DIR pin (held LOW everywhere)
  are not modelled.
* The Output Sink (`ledcWrite`) is modelled by the extra field
  `lastOutput`, recording the last duty passed to it.
-/

namespace Motor

/-- Source constant `const uint16_t ARTNET_UNIVERSE = 0`. -/
def ARTNET_UNIVERSE : ℕ := 0

/-- Source constant `const uint16_t MOTOR_CHANNEL = 2`. -/
def MOTOR_CHANNEL : ℕ := 2

/-- Source constant `const int DEFAULT_AMPLITUDE = 230` — maximum vibration amplitude. -/
def DEFAULT_AMPLITUDE : ℕ := 230

/-- Source constant `const int SAMPLE_INTERVAL_MS = 1000 / SAMPLE_HZ` with `SAMPLE_HZ = 40`. -/
def SAMPLE_INTERVAL_MS : ℕ := 1000 / 40

/-- Source constant `const unsigned long DMX_TIMEOUT_MS = 30000UL`. -/
def DMX_TIMEOUT_MS : ℕ := 30000

/-- Source constant `const uint8_t ZERO_FRAMES_TO_OFF = 5`. -/
def ZERO_FRAMES_TO_OFF : ℕ := 5

/-- Source constant `const uint32_t NOISE_STEP_DEFAULT = 20000`. -/
def NOISE_STEP_DEFAULT : ℕ := 20000

/-- Source constant `const float SMOOTH_ALPHA = 0.28f`, modelled as the rational 0.28. -/
def SMOOTH_ALPHA : ℚ := 28 / 100

/-- Modulus of `uint8_t`. -/
def U8 : ℕ := 256

/-- Modulus of `uint32_t` / `unsigned long` on ESP32. -/
def U32 : ℕ := 4294967296

/-- The mutable globals of the sketch.  `lastOutput` additionally records
the last duty value handed to the Output Sink (`ledcWrite`). -/
structure St where
  motorRunning : Bool
  currentPwm : ℤ
  lastDmxMillis : ℕ
  lastSampleMillis : ℕ
  motorLevel : ℕ
  noisePos : ℕ
  noiseStep : ℕ
  zeroFrameCount : ℕ
  lastOutput : ℤ
deriving DecidableEq

/-- Wraparound `uint32_t` subtraction `a - b`. -/
def usub32 (a b : ℕ) : ℕ := (((a : ℤ) - (b : ℤ)) % (U32 : ℤ)).toNat

/-- Arduino `constrain(val, 0, 255)`. -/
def clamp255 (val : ℤ) : ℤ := max 0 (min val 255)

/-- Source function `void writePwm(int val)`: clamp to `[0,255]` (`constrain`), store into
`currentPwm`, write to the PWM sink. -/
def writePwm (s : St) (val : ℤ) : St :=
  { s with currentPwm := clamp255 val, lastOutput := clamp255 val }

/-- Source function `void setMotorOff()`: clear `motorRunning` and `motorLevel`, force duty 0. -/
def setMotorOff (s : St) : St :=
  writePwm { s with motorRunning := false, motorLevel := 0 } 0

/-- Source function `void startMotor()`: set `motorRunning`, reseed `noisePos` from
`random()` (oracle `rnd`), reset `lastSampleMillis` to `millis()` (`now`). -/
def startMotor (s : St) (now rnd : ℕ) : St :=
  { s with motorRunning := true, noisePos := rnd % U32, lastSampleMillis := now % U32 }

/-- The body of `onDmxFrame` past the universe/length guards, with `val`
the extracted channel byte.  `lastDmxMillis = millis()` is recorded, then:
`val == 0` drives the debounce counter (`zeroFrameCount++`, stop once it
reaches `ZERO_FRAMES_TO_OFF`, reset the counter after acting), `val > 0`
resets the counter, stores the level and starts the motor if needed. -/
def handleVal (s : St) (val now rnd : ℕ) : St :=
  if val = 0 then
    if ZERO_FRAMES_TO_OFF ≤ (s.zeroFrameCount + 1) % U8 then
      if s.motorRunning then
        { setMotorOff { s with lastDmxMillis := now % U32 } with zeroFrameCount := 0 }
      else
        { s with lastDmxMillis := now % U32, zeroFrameCount := 0 }
    else
      { s with lastDmxMillis := now % U32,
               zeroFrameCount := (s.zeroFrameCount + 1) % U8 }
  else
    if s.motorRunning then
      { s with lastDmxMillis := now % U32, zeroFrameCount := 0, motorLevel := val }
    else
      startMotor
        { s with lastDmxMillis := now % U32, zeroFrameCount := 0, motorLevel := val }
        now rnd

/-- Source function `void onDmxFrame(uint16_t universe, uint16_t length, uint8_t sequence,
uint8_t* data)`: the Art-Net callback.  `data` is the frame's byte array
(each entry a byte, read through `% U8` to model `uint8_t`); `now` is
`millis()` and `rnd` the value `random()` would return if `startMotor` runs.
The `sequence` argument is unused by the source and omitted. -/
def onDmxFrame (s : St) (univ len : ℕ) (data : List ℕ) (now rnd : ℕ) : St :=
  if univ ≠ ARTNET_UNIVERSE then s
  else if MOTOR_CHANNEL < 1 ∨ len < MOTOR_CHANNEL then s
  else handleVal s (data.getD (MOTOR_CHANNEL - 1) 0 % U8) now rnd

/-- Source expression `uint8_t effectiveAmp = map(motorLevel, 0, 255, 0, DEFAULT_AMPLITUDE)`:
Arduino `map` is `(x - 0) * (230 - 0) / (255 - 0) + 0` in `long` arithmetic
(truncating division), stored into a `uint8_t`. -/
def effAmp (level : ℕ) : ℕ := (level * DEFAULT_AMPLITUDE / 255) % U8

/-- Source expression `int target = (int)((noiseVal * (uint16_t)effectiveAmp) / 255)`:
truncating integer division. -/
def targetDuty (n eff : ℕ) : ℕ := n * eff / 255

/-- Source expression `int smoothed = (int)round(SMOOTH_ALPHA * target + (1 - SMOOTH_ALPHA) * currentPwm)`,
modelled over `ℚ`. -/
def smooth (α : ℚ) (t c : ℤ) : ℤ := round (α * (t : ℚ) + (1 - α) * (c : ℚ))

/-- The DMX-timeout failsafe block of `loop()`. -/
def dmxTimeoutCheck (s : St) (now : ℕ) : St :=
  if s.motorRunning ∧ DMX_TIMEOUT_MS ≤ usub32 now s.lastDmxMillis then
    { setMotorOff s with zeroFrameCount := 0 }
  else s

/-- The noise / PWM update block of `loop()`.  `noiseRaw` is the oracle
value of `inoise8(noisePos)` (a `uint8_t`, hence reduced `% U8`). -/
def sampleCheck (s : St) (now noiseRaw : ℕ) : St :=
  if s.motorRunning ∧ SAMPLE_INTERVAL_MS ≤ usub32 now s.lastSampleMillis then
    let s1 := { s with noisePos := (s.noisePos + s.noiseStep) % U32 }
    let noiseVal := noiseRaw % U8
    let eff := effAmp s1.motorLevel
    let smoothed := smooth SMOOTH_ALPHA (targetDuty noiseVal eff : ℤ) s1.currentPwm
    { writePwm s1 smoothed with lastSampleMillis := now % U32 }
  else s

/-- One iteration of `loop()` after `artnet.read()`: the watchdog check
followed by the sampler, both against the same `now`. -/
def loopStep (s : St) (now noiseRaw : ℕ) : St :=
  sampleCheck (dmxTimeoutCheck s now) now noiseRaw

/-- The state after `setup()`: the zero-initialised globals
(`noiseStep = NOISE_STEP_DEFAULT`) followed by `setMotorOff()`. -/
def initialState : St :=
  setMotorOff
    { motorRunning := false, currentPwm := 0, lastDmxMillis := 0,
      lastSampleMillis := 0, motorLevel := 0, noisePos := 0,
      noiseStep := NOISE_STEP_DEFAULT, zeroFrameCount := 0, lastOutput := 0 }

/-- States reachable from startup by any interleaving of received frames
and polling-loop iterations. -/
inductive Reachable : St → Prop
  | init : Reachable initialState
  | frame (s : St) (u len : ℕ) (data : List ℕ) (now rnd : ℕ) :
      Reachable s → Reachable (onDmxFrame s u len data now rnd)
  | tick (s : St) (now noiseRaw : ℕ) :
      Reachable s → Reachable (loopStep s now noiseRaw)

/-- Definition following the spec's words (§4.3 step 3):
`effectiveAmplitude = round(level / 255 * maxAmplitude)`. -/
def effAmpSpec (level : ℕ) : ℤ := round ((level : ℚ) / 255 * (DEFAULT_AMPLITUDE : ℚ))

/-- Definition following the spec's words (§4.3 step 4):
`target = round(n * effectiveAmplitude / 255)`. -/
def targetDutySpec (n eff : ℕ) : ℤ := round ((n : ℚ) * (eff : ℚ) / 255)

/-! ### Branch characterizations of the frame handler -/

lemma onDmxFrame_dropped (s : St) (univ len : ℕ) (data : List ℕ) (now rnd : ℕ)
    (h : univ ≠ ARTNET_UNIVERSE ∨ len < MOTOR_CHANNEL) :
    onDmxFrame s univ len data now rnd = s := by
  unfold onDmxFrame
  rcases h with h | h
  · rw [if_pos h]
  · split
    · rfl
    · rw [if_pos (Or.inr h)]

lemma onDmxFrame_processed (s : St) (univ len : ℕ) (data : List ℕ) (now rnd : ℕ)
    (hu : univ = ARTNET_UNIVERSE) (hlen : MOTOR_CHANNEL ≤ len) :
    onDmxFrame s univ len data now rnd =
      handleVal s (data.getD (MOTOR_CHANNEL - 1) 0 % U8) now rnd := by
  unfold onDmxFrame
  rw [if_neg (by simp [hu]), if_neg (by simp [MOTOR_CHANNEL] at hlen ⊢; omega)]

lemma handleVal_zero_count (s : St) (val now rnd : ℕ) (hv : val = 0)
    (hz : (s.zeroFrameCount + 1) % U8 < ZERO_FRAMES_TO_OFF) :
    handleVal s val now rnd =
      { s with lastDmxMillis := now % U32,
               zeroFrameCount := (s.zeroFrameCount + 1) % U8 } := by
  unfold handleVal
  rw [if_pos hv, if_neg (by omega)]

lemma handleVal_zero_stop (s : St) (val now rnd : ℕ) (hv : val = 0)
    (hz : ZERO_FRAMES_TO_OFF ≤ (s.zeroFrameCount + 1) % U8)
    (hrun : s.motorRunning = true) :
    handleVal s val now rnd =
      { s with lastDmxMillis := now % U32, motorRunning := false, motorLevel := 0,
               currentPwm := 0, lastOutput := 0, zeroFrameCount := 0 } := by
  unfold handleVal setMotorOff writePwm
  rw [if_pos hv, if_pos hz, if_pos hrun]
  simp [clamp255]

lemma handleVal_zero_idle (s : St) (val now rnd : ℕ) (hv : val = 0)
    (hz : ZERO_FRAMES_TO_OFF ≤ (s.zeroFrameCount + 1) % U8)
    (hrun : s.motorRunning = false) :
    handleVal s val now rnd =
      { s with lastDmxMillis := now % U32, zeroFrameCount := 0 } := by
  unfold handleVal
  rw [if_pos hv, if_pos hz, if_neg (by simp [hrun])]

lemma handleVal_pos_running (s : St) (val now rnd : ℕ) (hv : val ≠ 0)
    (hrun : s.motorRunning = true) :
    handleVal s val now rnd =
      { s with lastDmxMillis := now % U32, zeroFrameCount := 0, motorLevel := val } := by
  unfold handleVal
  rw [if_neg hv, if_pos hrun]

lemma handleVal_pos_start (s : St) (val now rnd : ℕ) (hv : val ≠ 0)
    (hrun : s.motorRunning = false) :
    handleVal s val now rnd =
      { s with lastDmxMillis := now % U32, zeroFrameCount := 0, motorLevel := val,
               motorRunning := true, noisePos := rnd % U32,
               lastSampleMillis := now % U32 } := by
  unfold handleVal startMotor
  rw [if_neg hv, if_neg (by simp [hrun])]

/-! ### Branch characterizations of the loop -/

lemma dmxTimeoutCheck_fire (s : St) (now : ℕ) (hrun : s.motorRunning = true)
    (ht : DMX_TIMEOUT_MS ≤ usub32 now s.lastDmxMillis) :
    dmxTimeoutCheck s now =
      { s with motorRunning := false, motorLevel := 0,
               currentPwm := 0, lastOutput := 0, zeroFrameCount := 0 } := by
  unfold dmxTimeoutCheck setMotorOff writePwm
  rw [if_pos ⟨hrun, ht⟩]
  simp [clamp255]

lemma dmxTimeoutCheck_skip (s : St) (now : ℕ)
    (h : s.motorRunning = false ∨ usub32 now s.lastDmxMillis < DMX_TIMEOUT_MS) :
    dmxTimeoutCheck s now = s := by
  unfold dmxTimeoutCheck
  rcases h with h | h
  · rw [if_neg (by simp [h])]
  · rw [if_neg (by omega)]

lemma sampleCheck_fire (s : St) (now noiseRaw : ℕ) (hrun : s.motorRunning = true)
    (ht : SAMPLE_INTERVAL_MS ≤ usub32 now s.lastSampleMillis) :
    sampleCheck s now noiseRaw =
      { s with noisePos := (s.noisePos + s.noiseStep) % U32,
               currentPwm := clamp255 (smooth SMOOTH_ALPHA
                 (targetDuty (noiseRaw % U8) (effAmp s.motorLevel)) s.currentPwm),
               lastOutput := clamp255 (smooth SMOOTH_ALPHA
                 (targetDuty (noiseRaw % U8) (effAmp s.motorLevel)) s.currentPwm),
               lastSampleMillis := now % U32 } := by
  unfold sampleCheck writePwm
  rw [if_pos ⟨hrun, ht⟩]

lemma sampleCheck_skip (s : St) (now noiseRaw : ℕ)
    (h : s.motorRunning = false ∨ usub32 now s.lastSampleMillis < SAMPLE_INTERVAL_MS) :
    sampleCheck s now noiseRaw = s := by
  unfold sampleCheck
  rcases h with h | h
  · rw [if_neg (by simp [h])]
  · rw [if_neg (by omega)]

/-! ### The smoothing filter stays between its two inputs -/

lemma smooth_ge_min (α : ℚ) (h0 : 0 ≤ α) (h1 : α ≤ 1) (t c : ℤ) :
    min c t ≤ smooth α t c := by
  rw [smooth, round_eq, Int.le_floor]
  have hc : ((min c t : ℤ) : ℚ) ≤ (c : ℚ) := by exact_mod_cast min_le_left c t
  have ht : ((min c t : ℤ) : ℚ) ≤ (t : ℚ) := by exact_mod_cast min_le_right c t
  nlinarith [mul_nonneg h0 (sub_nonneg.mpr ht),
             mul_nonneg (sub_nonneg.mpr h1) (sub_nonneg.mpr hc)]

lemma smooth_le_max (α : ℚ) (h0 : 0 ≤ α) (h1 : α ≤ 1) (t c : ℤ) :
    smooth α t c ≤ max c t := by
  rw [smooth, round_eq, ← Int.lt_add_one_iff]
  apply Int.floor_lt.mpr
  have hc : (c : ℚ) ≤ ((max c t : ℤ) : ℚ) := by exact_mod_cast le_max_left c t
  have ht : (t : ℚ) ≤ ((max c t : ℤ) : ℚ) := by exact_mod_cast le_max_right c t
  have hcast : ((max c t + 1 : ℤ) : ℚ) = ((max c t : ℤ) : ℚ) + 1 := by push_cast; ring
  rw [hcast]
  have p1 : α * (t : ℚ) ≤ α * ((max c t : ℤ) : ℚ) := mul_le_mul_of_nonneg_left ht h0
  have p2 : (1 - α) * (c : ℚ) ≤ (1 - α) * ((max c t : ℤ) : ℚ) :=
    mul_le_mul_of_nonneg_left hc (by linarith)
  have e1 : α * ((max c t : ℤ) : ℚ) + (1 - α) * ((max c t : ℤ) : ℚ) =
      ((max c t : ℤ) : ℚ) := by ring
  linarith

/-- The constant `SMOOTH_ALPHA` is in `(0,1)`. -/
lemma smooth_alpha_mem : 0 < SMOOTH_ALPHA ∧ SMOOTH_ALPHA < 1 := by
  constructor <;> norm_num [SMOOTH_ALPHA]

/-! ### Arithmetic bounds for the sampler -/

/-- Bytes are below 255 after a `uint8_t` store. -/
lemma mod_u8_le (n : ℕ) : n % U8 ≤ 255 := by
  simp only [U8]
  omega

/-- The effective amplitude never exceeds the configured ceiling. -/
lemma effAmp_le (level : ℕ) (h : level ≤ 255) : effAmp level ≤ DEFAULT_AMPLITUDE := by
  unfold effAmp DEFAULT_AMPLITUDE U8
  have h1 : level * 230 / 255 ≤ 230 := by
    calc level * 230 / 255 ≤ 255 * 230 / 255 :=
          Nat.div_le_div_right (mul_le_mul_right' h 230)
      _ = 230 := by norm_num
  exact le_trans (Nat.mod_le _ _) h1

/-- The target duty never exceeds the effective amplitude. -/
lemma targetDuty_le (n eff : ℕ) (h : n ≤ 255) : targetDuty n eff ≤ eff := by
  unfold targetDuty
  calc n * eff / 255 ≤ 255 * eff / 255 := by
        apply Nat.div_le_div_right
        exact Nat.mul_le_mul_right _ h
    _ = eff := by omega

lemma clamp255_of_mem (v : ℤ) (h0 : 0 ≤ v) (h1 : v ≤ 255) : clamp255 v = v := by
  unfold clamp255
  omega

/-! ### The reachability invariant -/

/-- Inductive invariant of the controller state: the duty and level ranges,
agreement between `currentPwm` and the last Output-Sink write, the debounce
counter bound, and duty 0 whenever stopped. -/
def Inv (s : St) : Prop :=
  0 ≤ s.currentPwm ∧ s.currentPwm ≤ (DEFAULT_AMPLITUDE : ℤ) ∧
  s.lastOutput = s.currentPwm ∧ s.motorLevel ≤ 255 ∧
  s.zeroFrameCount ≤ 4 ∧ (s.motorRunning = false → s.currentPwm = 0)

lemma inv_initialState : Inv initialState := by
  unfold Inv initialState setMotorOff writePwm clamp255 NOISE_STEP_DEFAULT DEFAULT_AMPLITUDE
  norm_num

lemma inv_handleVal (s : St) (val now rnd : ℕ) (hval : val < U8) (h : Inv s) :
    Inv (handleVal s val now rnd) := by
  obtain ⟨h1, h2, h3, h4, h5, h6⟩ := h
  have hval' : val ≤ 255 := by simp only [U8] at hval; omega
  by_cases hv : val = 0
  · by_cases hz : ZERO_FRAMES_TO_OFF ≤ (s.zeroFrameCount + 1) % U8
    · cases hrun : s.motorRunning
      · rw [handleVal_zero_idle s val now rnd hv hz hrun]
        exact ⟨h1, h2, h3, h4, Nat.zero_le 4, h6⟩
      · rw [handleVal_zero_stop s val now rnd hv hz hrun]
        exact ⟨le_refl 0, by norm_num [DEFAULT_AMPLITUDE], rfl, Nat.zero_le 255,
          Nat.zero_le 4, fun _ => rfl⟩
    · rw [handleVal_zero_count s val now rnd hv (by omega)]
      refine ⟨h1, h2, h3, h4, ?_, h6⟩
      show (s.zeroFrameCount + 1) % U8 ≤ 4
      simp only [ZERO_FRAMES_TO_OFF] at hz
      omega
  · cases hrun : s.motorRunning
    · rw [handleVal_pos_start s val now rnd hv hrun]
      refine ⟨h1, h2, h3, hval', Nat.zero_le 4, ?_⟩
      intro hf
      exact absurd hf (by simp)
    · rw [handleVal_pos_running s val now rnd hv hrun]
      refine ⟨h1, h2, h3, hval', Nat.zero_le 4, ?_⟩
      intro hf
      exact absurd (show s.motorRunning = false from hf) (by simp [hrun])

lemma inv_onDmxFrame (s : St) (univ len : ℕ) (data : List ℕ) (now rnd : ℕ)
    (h : Inv s) : Inv (onDmxFrame s univ len data now rnd) := by
  by_cases hu : univ = ARTNET_UNIVERSE
  · by_cases hlen : MOTOR_CHANNEL ≤ len
    · rw [onDmxFrame_processed s univ len data now rnd hu hlen]
      exact inv_handleVal s _ now rnd (Nat.mod_lt _ (by simp only [U8]; omega)) h
    · rw [onDmxFrame_dropped s univ len data now rnd (Or.inr (by omega))]
      exact h
  · rw [onDmxFrame_dropped s univ len data now rnd (Or.inl hu)]
    exact h

lemma inv_dmxTimeoutCheck (s : St) (now : ℕ) (h : Inv s) :
    Inv (dmxTimeoutCheck s now) := by
  obtain ⟨h1, h2, h3, h4, h5, h6⟩ := h
  by_cases hrun : s.motorRunning = true
  · by_cases ht : DMX_TIMEOUT_MS ≤ usub32 now s.lastDmxMillis
    · rw [dmxTimeoutCheck_fire s now hrun ht]
      exact ⟨le_refl 0, by norm_num [DEFAULT_AMPLITUDE], rfl, Nat.zero_le 255,
        Nat.zero_le 4, fun _ => rfl⟩
    · rw [dmxTimeoutCheck_skip s now (Or.inr (by omega))]
      exact ⟨h1, h2, h3, h4, h5, h6⟩
  · rw [dmxTimeoutCheck_skip s now (Or.inl (by simpa using hrun))]
    exact ⟨h1, h2, h3, h4, h5, h6⟩

lemma inv_sampleCheck (s : St) (now noiseRaw : ℕ) (h : Inv s) :
    Inv (sampleCheck s now noiseRaw) := by
  obtain ⟨h1, h2, h3, h4, h5, h6⟩ := h
  by_cases hrun : s.motorRunning = true
  · by_cases ht : SAMPLE_INTERVAL_MS ≤ usub32 now s.lastSampleMillis
    · rw [sampleCheck_fire s now noiseRaw hrun ht]
      set t : ℤ := (targetDuty (noiseRaw % U8) (effAmp s.motorLevel) : ℤ) with hT
      have htle : t ≤ (DEFAULT_AMPLITUDE : ℤ) := by
        rw [hT]
        have step1 := targetDuty_le (noiseRaw % U8) (effAmp s.motorLevel) (mod_u8_le noiseRaw)
        have step2 := effAmp_le s.motorLevel h4
        exact_mod_cast le_trans step1 step2
      have ht0 : (0 : ℤ) ≤ t := by rw [hT]; exact_mod_cast Nat.zero_le _
      have hs1 := smooth_ge_min SMOOTH_ALPHA (le_of_lt smooth_alpha_mem.1)
        (le_of_lt smooth_alpha_mem.2) t s.currentPwm
      have hs2 := smooth_le_max SMOOTH_ALPHA (le_of_lt smooth_alpha_mem.1)
        (le_of_lt smooth_alpha_mem.2) t s.currentPwm
      have hlow : (0 : ℤ) ≤ smooth SMOOTH_ALPHA t s.currentPwm := by
        have : (0 : ℤ) ≤ min s.currentPwm t := le_min h1 ht0
        omega
      have hhigh : smooth SMOOTH_ALPHA t s.currentPwm ≤ (DEFAULT_AMPLITUDE : ℤ) := by
        have : max s.currentPwm t ≤ (DEFAULT_AMPLITUDE : ℤ) := max_le h2 htle
        omega
      have hcl : clamp255 (smooth SMOOTH_ALPHA t s.currentPwm) =
          smooth SMOOTH_ALPHA t s.currentPwm :=
        clamp255_of_mem _ hlow (le_trans hhigh (by norm_num [DEFAULT_AMPLITUDE]))
      exact ⟨by rw [hcl]; exact hlow, by rw [hcl]; exact hhigh, rfl, h4, h5,
        fun hf => absurd (show s.motorRunning = false from hf) (by simp [hrun])⟩
    · rw [sampleCheck_skip s now noiseRaw (Or.inr (by omega))]
      exact ⟨h1, h2, h3, h4, h5, h6⟩
  · rw [sampleCheck_skip s now noiseRaw (Or.inl (by simpa using hrun))]
    exact ⟨h1, h2, h3, h4, h5, h6⟩

lemma inv_loopStep (s : St) (now noiseRaw : ℕ) (h : Inv s) :
    Inv (loopStep s now noiseRaw) :=
  inv_sampleCheck _ now noiseRaw (inv_dmxTimeoutCheck s now h)

/-- Every reachable state satisfies the invariant. -/
lemma reachable_inv (s : St) (h : Reachable s) : Inv s := by
  induction h with
  | init => exact inv_initialState
  | frame s u len data now rnd _ ih => exact inv_onDmxFrame s u len data now rnd ih
  | tick s now noiseRaw _ ih => exact inv_loopStep s now noiseRaw ih

/-- A fixed concrete running state used to instantiate the claim theorems. -/
def witnessState : St :=
  { motorRunning := true, currentPwm := 0, lastDmxMillis := 0, lastSampleMillis := 0,
    motorLevel := 9, noisePos := 0, noiseStep := NOISE_STEP_DEFAULT,
    zeroFrameCount := 0, lastOutput := 0 }

/-- C2: whenever the controller is running and `now - lastFrameTime >= timeout`,
the watchdog in `loop()` forces the stop transition (duty 0, `level = 0`,
`running = false`, last Output-Sink write 0) and resets `zeroStreak` to 0,
regardless of `zeroStreak`'s current value. -/
theorem claim_C2 (s : St) (now noiseRaw : ℕ) (hrun : s.motorRunning = true)
    (ht : DMX_TIMEOUT_MS ≤ usub32 now s.lastDmxMillis) :
    loopStep s now noiseRaw =
      { s with motorRunning := false, motorLevel := 0, currentPwm := 0,
               lastOutput := 0, zeroFrameCount := 0 } := by
  unfold loopStep
  rw [dmxTimeoutCheck_fire s now hrun ht, sampleCheck_skip _ _ _ (Or.inl rfl)]

/-- Witness for C2 at a concrete running state with an expired link timer. -/
theorem claim_C2_witness :
    loopStep witnessState 30000 0 =
      { witnessState with motorRunning := false, motorLevel := 0, currentPwm := 0,
                          lastOutput := 0, zeroFrameCount := 0 } :=
  claim_C2 witnessState 30000 0 rfl (by decide)

/-- C5: for every smoothing factor `α ∈ (0,1)` and previous duty and target in
`[0,255]`, the smoothing step `smoothed = round(α*target + (1-α)*currentDuty)`
lies between the previous duty and the target (no single-step overshoot);
in particular `α = 0.28`, `currentDuty = 100`, `target = 200` gives 128. -/
theorem claim_C5 (α : ℚ) (h0 : 0 < α) (h1 : α < 1) (t c : ℤ)
    (ht0 : 0 ≤ t) (ht255 : t ≤ 255) (hc0 : 0 ≤ c) (hc255 : c ≤ 255) :
    (min c t ≤ smooth α t c ∧ smooth α t c ≤ max c t) ∧
    smooth SMOOTH_ALPHA 200 100 = 128 := by
  refine ⟨⟨smooth_ge_min α (le_of_lt h0) (le_of_lt h1) t c,
          smooth_le_max α (le_of_lt h0) (le_of_lt h1) t c⟩, ?_⟩
  rw [smooth, round_eq]
  norm_num [SMOOTH_ALPHA]

/-- Witness for C5 at `α = 0.28`, `currentDuty = 100`, `target = 200`. -/
theorem claim_C5_witness :
    (min (100 : ℤ) 200 ≤ smooth SMOOTH_ALPHA 200 100 ∧
      smooth SMOOTH_ALPHA 200 100 ≤ max (100 : ℤ) 200) ∧
    smooth SMOOTH_ALPHA 200 100 = 128 :=
  claim_C5 SMOOTH_ALPHA (by norm_num [SMOOTH_ALPHA]) (by norm_num [SMOOTH_ALPHA])
    200 100 (by norm_num) (by norm_num) (by norm_num) (by norm_num)

/-- C6: in every reachable state, `running = false` implies the last value
written to the Output Sink was duty 0; and while `running = false` the
sampler performs no work at all. -/
theorem claim_C6 :
    (∀ s : St, Reachable s → s.motorRunning = false → s.lastOutput = 0) ∧
    (∀ (s : St) (now noiseRaw : ℕ), s.motorRunning = false →
      sampleCheck s now noiseRaw = s) := by
  constructor
  · intro s hs hr
    obtain ⟨h1, h2, h3, h4, h5, h6⟩ := reachable_inv s hs
    rw [h3, h6 hr]
  · intro s now noiseRaw hr
    exact sampleCheck_skip s now noiseRaw (Or.inl hr)

/-- Witness for C6 at the startup state. -/
theorem claim_C6_witness :
    initialState.lastOutput = 0 ∧ sampleCheck initialState 5 6 = initialState :=
  ⟨claim_C6.1 initialState Reachable.init rfl, claim_C6.2 initialState 5 6 rfl⟩

/-- C7: a frame whose universe does not match `ARTNET_UNIVERSE`, or whose
length does not cover `MOTOR_CHANNEL`, is dropped with no state mutation
at all. -/
theorem claim_C7 (s : St) (univ len : ℕ) (data : List ℕ) (now rnd : ℕ)
    (h : univ ≠ ARTNET_UNIVERSE ∨ len < MOTOR_CHANNEL) :
    onDmxFrame s univ len data now rnd = s :=
  onDmxFrame_dropped s univ len data now rnd h

/-- Witness for C7: a frame on universe 1 and a one-byte frame are both dropped. -/
theorem claim_C7_witness :
    onDmxFrame witnessState 1 2 [0, 0] 3 4 = witnessState ∧
    onDmxFrame witnessState 0 1 [0] 3 4 = witnessState :=
  ⟨claim_C7 witnessState 1 2 [0, 0] 3 4 (Or.inl (by decide)),
   claim_C7 witnessState 0 1 [0] 3 4 (Or.inr (by decide))⟩

/-- C3: a processed frame with channel value `v > 0` resets `zeroStreak`,
sets `level = v` and records the frame time; if the motor was stopped it
additionally transitions to running, reseeds the noise position from the
fresh pseudo-random value and resets `lastSampleTime = now`; if it was
already running, no other field changes. -/
theorem claim_C3 (s : St) (univ len : ℕ) (data : List ℕ) (now rnd : ℕ) (v : ℕ)
    (hu : univ = ARTNET_UNIVERSE) (hlen : MOTOR_CHANNEL ≤ len)
    (hv : data.getD (MOTOR_CHANNEL - 1) 0 % U8 = v) (hpos : 0 < v) :
    (s.motorRunning = false →
      onDmxFrame s univ len data now rnd =
        { s with lastDmxMillis := now % U32, zeroFrameCount := 0, motorLevel := v,
                 motorRunning := true, noisePos := rnd % U32,
                 lastSampleMillis := now % U32 }) ∧
    (s.motorRunning = true →
      onDmxFrame s univ len data now rnd =
        { s with lastDmxMillis := now % U32, zeroFrameCount := 0, motorLevel := v }) := by
  have hne : data.getD (MOTOR_CHANNEL - 1) 0 % U8 ≠ 0 := by omega
  constructor
  · intro hrun
    rw [onDmxFrame_processed s univ len data now rnd hu hlen,
        handleVal_pos_start s _ now rnd hne hrun, hv]
  · intro hrun
    rw [onDmxFrame_processed s univ len data now rnd hu hlen,
        handleVal_pos_running s _ now rnd hne hrun, hv]

/-- Witness for C3: value 5 starts the stopped startup state and updates a
running state in place. -/
theorem claim_C3_witness :
    (onDmxFrame initialState 0 2 [0, 5] 11 13 =
      { initialState with lastDmxMillis := 11 % U32, zeroFrameCount := 0,
                          motorLevel := 5, motorRunning := true, noisePos := 13 % U32,
                          lastSampleMillis := 11 % U32 }) ∧
    (onDmxFrame witnessState 0 2 [0, 5] 11 13 =
      { witnessState with lastDmxMillis := 11 % U32, zeroFrameCount := 0,
                          motorLevel := 5 }) :=
  ⟨(claim_C3 initialState 0 2 [0, 5] 11 13 5 rfl (by decide) (by decide) (by decide)).1 rfl,
   (claim_C3 witnessState 0 2 [0, 5] 11 13 5 rfl (by decide) (by decide) (by decide)).2 rfl⟩

/-- Counterexample to C4 as stated: the code computes the effective
amplitude and the target duty with truncating integer division, not
rounding.  At `level = 1` the code's `map(1, 0, 255, 0, 230)` is 0 while
the spec's `round(1/255*230)` is 1; at `n = 1`, `eff = 230` the code's
target is 0 while the spec's `round(1*230/255)` is 1. -/
theorem claim_C4_counterexample :
    effAmp 1 = 0 ∧ effAmpSpec 1 = 1 ∧ ((effAmp 1 : ℤ) ≠ effAmpSpec 1) ∧
    targetDuty 1 230 = 0 ∧ targetDutySpec 1 230 = 1 ∧
    ((targetDuty 1 230 : ℤ) ≠ targetDutySpec 1 230) := by
  have h1 : effAmpSpec 1 = 1 := by
    simp only [effAmpSpec, DEFAULT_AMPLITUDE, round_eq]
    norm_num
  have h2 : targetDutySpec 1 230 = 1 := by
    simp only [targetDutySpec, round_eq]
    norm_num
  refine ⟨by decide, h1, ?_, by decide, h2, ?_⟩
  · rw [h1]; decide
  · rw [h2]; decide

/-- C4 (amended): on every sample tick while running, the duty written is
the clamped smoothing of the target, where the code computes
`effectiveAmplitude = floor(level * maxAmplitude / 255)` (truncating
integer division, `map`) and `target = floor(n * effectiveAmplitude / 255)`
(truncating integer division), for every `level` and noise value `n` in
`[0,255]`; `level = 128` with `maxAmplitude = 230` still yields
`effectiveAmplitude = 115`. -/
theorem claim_C4 (s : St) (now noiseRaw : ℕ)
    (hrun : s.motorRunning = true)
    (ht : SAMPLE_INTERVAL_MS ≤ usub32 now s.lastSampleMillis)
    (hlev : s.motorLevel ≤ 255) :
    (sampleCheck s now noiseRaw).currentPwm =
      clamp255 (smooth SMOOTH_ALPHA
        (targetDuty (noiseRaw % U8) (effAmp s.motorLevel)) s.currentPwm) ∧
    ((effAmp s.motorLevel : ℤ) =
      Int.floor ((s.motorLevel : ℚ) / 255 * (DEFAULT_AMPLITUDE : ℚ))) ∧
    (∀ n eff : ℕ, (targetDuty n eff : ℤ) = Int.floor ((n : ℚ) * (eff : ℚ) / 255)) ∧
    effAmp 128 = 115 := by
  refine ⟨?_, ?_, ?_, by decide⟩
  · rw [sampleCheck_fire s now noiseRaw hrun ht]
  · have hsm : s.motorLevel * DEFAULT_AMPLITUDE / 255 < U8 := by
      have := effAmp_le s.motorLevel hlev
      unfold effAmp at this
      unfold DEFAULT_AMPLITUDE U8 at this ⊢
      omega
    unfold effAmp
    rw [Nat.mod_eq_of_lt hsm]
    have : ((s.motorLevel : ℚ) / 255 * (DEFAULT_AMPLITUDE : ℚ)) =
        ((s.motorLevel * DEFAULT_AMPLITUDE : ℕ) : ℚ) / ((255 : ℕ) : ℚ) := by
      push_cast
      ring
    rw [this, Rat.floor_natCast_div_natCast]
    exact Int.natCast_div _ _
  · intro n eff
    unfold targetDuty
    have : ((n : ℚ) * (eff : ℚ) / 255) = ((n * eff : ℕ) : ℚ) / ((255 : ℕ) : ℚ) := by
      push_cast
      ring
    rw [this, Rat.floor_natCast_div_natCast]
    exact Int.natCast_div _ _

/-- Witness for C4 (amended) at a concrete running state due for a sample. -/
theorem claim_C4_witness :
    (sampleCheck witnessState 100 255).currentPwm =
      clamp255 (smooth SMOOTH_ALPHA
        (targetDuty (255 % U8) (effAmp witnessState.motorLevel))
        witnessState.currentPwm) ∧
    ((effAmp witnessState.motorLevel : ℤ) =
      Int.floor ((witnessState.motorLevel : ℚ) / 255 * (DEFAULT_AMPLITUDE : ℚ))) ∧
    (∀ n eff : ℕ, (targetDuty n eff : ℤ) = Int.floor ((n : ℚ) * (eff : ℚ) / 255)) ∧
    effAmp 128 = 115 :=
  claim_C4 witnessState 100 255 rfl (by decide) (by decide)

/-- C8: per processed frame, exactly one of the two effects occurs: the
debounce counter advances (when `v = 0`; the advance is the increment,
reset to 0 once it reaches the threshold) or the level is updated to `v`
with the counter cleared (when `v > 0`) — never both, never neither. -/
theorem claim_C8 (s : St) (univ len : ℕ) (data : List ℕ) (now rnd : ℕ) (v : ℕ)
    (hu : univ = ARTNET_UNIVERSE) (hlen : MOTOR_CHANNEL ≤ len)
    (hv : data.getD (MOTOR_CHANNEL - 1) 0 % U8 = v) :
    Xor'
      (v = 0 ∧ (onDmxFrame s univ len data now rnd).zeroFrameCount =
        (if ZERO_FRAMES_TO_OFF ≤ (s.zeroFrameCount + 1) % U8 then 0
         else (s.zeroFrameCount + 1) % U8))
      (0 < v ∧ (onDmxFrame s univ len data now rnd).motorLevel = v ∧
        (onDmxFrame s univ len data now rnd).zeroFrameCount = 0) := by
  rw [onDmxFrame_processed s univ len data now rnd hu hlen]
  by_cases hzero : v = 0
  · left
    have hv0 : data.getD (MOTOR_CHANNEL - 1) 0 % U8 = 0 := by omega
    refine ⟨⟨hzero, ?_⟩, fun hr => by omega⟩
    by_cases hth : ZERO_FRAMES_TO_OFF ≤ (s.zeroFrameCount + 1) % U8
    · rw [if_pos hth]
      cases hrun : s.motorRunning
      · rw [handleVal_zero_idle s _ now rnd hv0 hth hrun]
      · rw [handleVal_zero_stop s _ now rnd hv0 hth hrun]
    · rw [if_neg hth, handleVal_zero_count s _ now rnd hv0 (by omega)]
  · right
    have hvne : data.getD (MOTOR_CHANNEL - 1) 0 % U8 ≠ 0 := by omega
    refine ⟨⟨by omega, ?_, ?_⟩, fun hl => hzero hl.1⟩
    all_goals cases hrun : s.motorRunning
    · rw [handleVal_pos_start s _ now rnd hvne hrun, hv]
    · rw [handleVal_pos_running s _ now rnd hvne hrun, hv]
    · rw [handleVal_pos_start s _ now rnd hvne hrun]
    · rw [handleVal_pos_running s _ now rnd hvne hrun]

/-- Witness for C8 at a zero frame on a concrete running state. -/
theorem claim_C8_witness :
    Xor'
      ((0 : ℕ) = 0 ∧ (onDmxFrame witnessState 0 2 [0, 0] 3 4).zeroFrameCount =
        (if ZERO_FRAMES_TO_OFF ≤ (witnessState.zeroFrameCount + 1) % U8 then 0
         else (witnessState.zeroFrameCount + 1) % U8))
      (0 < (0 : ℕ) ∧ (onDmxFrame witnessState 0 2 [0, 0] 3 4).motorLevel = 0 ∧
        (onDmxFrame witnessState 0 2 [0, 0] 3 4).zeroFrameCount = 0) :=
  claim_C8 witnessState 0 2 [0, 0] 3 4 0 rfl (by decide) (by decide)

/-- C9: every reachable state keeps `currentDuty` and `level` in `[0,255]`
and `zeroStreak` in `[0,threshold]`; `zeroStreak` is reset to 0 by every
nonzero processed frame, by every debounce stop (the frame whose increment
reaches the threshold), and by every watchdog stop. -/
theorem claim_C9 :
    (∀ s : St, Reachable s →
      (0 ≤ s.currentPwm ∧ s.currentPwm ≤ 255) ∧ s.motorLevel ≤ 255 ∧
      s.zeroFrameCount ≤ ZERO_FRAMES_TO_OFF) ∧
    (∀ (s : St) (univ len : ℕ) (data : List ℕ) (now rnd : ℕ),
      univ = ARTNET_UNIVERSE → MOTOR_CHANNEL ≤ len →
      data.getD (MOTOR_CHANNEL - 1) 0 % U8 ≠ 0 →
      (onDmxFrame s univ len data now rnd).zeroFrameCount = 0) ∧
    (∀ (s : St) (univ len : ℕ) (data : List ℕ) (now rnd : ℕ),
      univ = ARTNET_UNIVERSE → MOTOR_CHANNEL ≤ len →
      data.getD (MOTOR_CHANNEL - 1) 0 % U8 = 0 →
      ZERO_FRAMES_TO_OFF ≤ (s.zeroFrameCount + 1) % U8 →
      (onDmxFrame s univ len data now rnd).zeroFrameCount = 0) ∧
    (∀ (s : St) (now noiseRaw : ℕ), s.motorRunning = true →
      DMX_TIMEOUT_MS ≤ usub32 now s.lastDmxMillis →
      (loopStep s now noiseRaw).zeroFrameCount = 0) := by
  refine ⟨?_, ?_, ?_, ?_⟩
  · intro s hs
    obtain ⟨h1, h2, h3, h4, h5, h6⟩ := reachable_inv s hs
    refine ⟨⟨h1, le_trans h2 (by norm_num [DEFAULT_AMPLITUDE])⟩, h4, ?_⟩
    simp only [ZERO_FRAMES_TO_OFF]
    omega
  · intro s univ len data now rnd hu hlen hvne
    rw [onDmxFrame_processed s univ len data now rnd hu hlen]
    cases hrun : s.motorRunning
    · rw [handleVal_pos_start s _ now rnd hvne hrun]
    · rw [handleVal_pos_running s _ now rnd hvne hrun]
  · intro s univ len data now rnd hu hlen hv0 hth
    rw [onDmxFrame_processed s univ len data now rnd hu hlen]
    cases hrun : s.motorRunning
    · rw [handleVal_zero_idle s _ now rnd hv0 hth hrun]
    · rw [handleVal_zero_stop s _ now rnd hv0 hth hrun]
  · intro s now noiseRaw hrun ht
    rw [claim_C2 s now noiseRaw hrun ht]

/-- Witness for C9 at concrete states and frames. -/
theorem claim_C9_witness :
    ((0 ≤ initialState.currentPwm ∧ initialState.currentPwm ≤ 255) ∧
      initialState.motorLevel ≤ 255 ∧
      initialState.zeroFrameCount ≤ ZERO_FRAMES_TO_OFF) ∧
    (onDmxFrame witnessState 0 2 [0, 5] 3 4).zeroFrameCount = 0 ∧
    (onDmxFrame { witnessState with zeroFrameCount := 4 } 0 2 [0, 0] 3 4).zeroFrameCount = 0 ∧
    (loopStep witnessState 30000 0).zeroFrameCount = 0 :=
  ⟨claim_C9.1 initialState Reachable.init,
   claim_C9.2.1 witnessState 0 2 [0, 5] 3 4 rfl (by decide) (by decide),
   claim_C9.2.2.1 { witnessState with zeroFrameCount := 4 } 0 2 [0, 0] 3 4 rfl
     (by decide) (by decide) (by decide),
   claim_C9.2.2.2 witnessState 30000 0 rfl (by decide)⟩

/-- C10: in every reachable state the duty (and the last Output-Sink write)
never exceeds the configured maximum amplitude `DEFAULT_AMPLITUDE = 230`:
each tick's target is at most the effective amplitude, which is at most the
ceiling, and the smoothed value stays between target and previous duty. -/
theorem claim_C10 :
    (∀ s : St, Reachable s →
      s.currentPwm ≤ (DEFAULT_AMPLITUDE : ℤ) ∧
      s.lastOutput ≤ (DEFAULT_AMPLITUDE : ℤ)) ∧
    (∀ n eff : ℕ, n ≤ 255 → targetDuty n eff ≤ eff) ∧
    (∀ level : ℕ, level ≤ 255 → effAmp level ≤ DEFAULT_AMPLITUDE) ∧
    initialState.currentPwm = 0 := by
  refine ⟨?_, targetDuty_le, effAmp_le, rfl⟩
  intro s hs
  obtain ⟨h1, h2, h3, h4, h5, h6⟩ := reachable_inv s hs
  exact ⟨h2, by rw [h3]; exact h2⟩

/-- Witness for C10 at the startup state and concrete sampler inputs. -/
theorem claim_C10_witness :
    (initialState.currentPwm ≤ (DEFAULT_AMPLITUDE : ℤ) ∧
      initialState.lastOutput ≤ (DEFAULT_AMPLITUDE : ℤ)) ∧
    targetDuty 255 230 ≤ 230 ∧ effAmp 255 ≤ DEFAULT_AMPLITUDE ∧
    initialState.currentPwm = 0 :=
  ⟨claim_C10.1 initialState Reachable.init,
   claim_C10.2.1 255 230 (by decide),
   claim_C10.2.2.1 255 (by decide),
   claim_C10.2.2.2⟩

/-- C1: per processed zero frame the debounce counter is incremented; once
the incremented counter reaches the threshold the controller stops exactly
when it was running (duty 0, `level = 0`, `running = false`) and the
counter is reset whether or not a transition occurred; starting from
running with `zeroStreak = 0`, exactly five consecutive zero frames enter
STOPPED exactly once (the first four leave it running), and any nonzero
frame resets the count. -/
theorem claim_C1 (s : St) (univ len : ℕ) (data : List ℕ) (now rnd : ℕ)
    (hu : univ = ARTNET_UNIVERSE) (hlen : MOTOR_CHANNEL ≤ len)
    (hv : data.getD (MOTOR_CHANNEL - 1) 0 % U8 = 0) :
    ((s.zeroFrameCount + 1) % U8 < ZERO_FRAMES_TO_OFF →
      onDmxFrame s univ len data now rnd =
        { s with lastDmxMillis := now % U32,
                 zeroFrameCount := (s.zeroFrameCount + 1) % U8 }) ∧
    (ZERO_FRAMES_TO_OFF ≤ (s.zeroFrameCount + 1) % U8 →
      (s.motorRunning = true →
        onDmxFrame s univ len data now rnd =
          { s with lastDmxMillis := now % U32, motorRunning := false, motorLevel := 0,
                   currentPwm := 0, lastOutput := 0, zeroFrameCount := 0 }) ∧
      (s.motorRunning = false →
        onDmxFrame s univ len data now rnd =
          { s with lastDmxMillis := now % U32, zeroFrameCount := 0 })) ∧
    (s.motorRunning = true → s.zeroFrameCount = 0 →
      (∀ k, k ≤ 4 →
        ((fun t => onDmxFrame t univ len data now rnd)^[k] s).motorRunning = true ∧
        ((fun t => onDmxFrame t univ len data now rnd)^[k] s).zeroFrameCount = k) ∧
      (((fun t => onDmxFrame t univ len data now rnd)^[5] s).motorRunning = false ∧
       ((fun t => onDmxFrame t univ len data now rnd)^[5] s).zeroFrameCount = 0 ∧
       ((fun t => onDmxFrame t univ len data now rnd)^[5] s).currentPwm = 0 ∧
       ((fun t => onDmxFrame t univ len data now rnd)^[5] s).motorLevel = 0)) ∧
    (∀ (t : St) (data2 : List ℕ), data2.getD (MOTOR_CHANNEL - 1) 0 % U8 ≠ 0 →
      (onDmxFrame t univ len data2 now rnd).zeroFrameCount = 0) := by
  have hproc : ∀ t : St, onDmxFrame t univ len data now rnd =
      handleVal t (data.getD (MOTOR_CHANNEL - 1) 0 % U8) now rnd :=
    fun t => onDmxFrame_processed t univ len data now rnd hu hlen
  refine ⟨?_, ?_, ?_, ?_⟩
  · intro hlt
    rw [hproc s, handleVal_zero_count s _ now rnd hv hlt]
  · intro hge
    constructor
    · intro hrun
      rw [hproc s, handleVal_zero_stop s _ now rnd hv hge hrun]
    · intro hrun
      rw [hproc s, handleVal_zero_idle s _ now rnd hv hge hrun]
  · intro hrun hz0
    set f := fun t => onDmxFrame t univ len data now rnd with hf
    have step_lt : ∀ t : St, (t.zeroFrameCount + 1) % U8 < ZERO_FRAMES_TO_OFF →
        f t = { t with lastDmxMillis := now % U32,
                       zeroFrameCount := (t.zeroFrameCount + 1) % U8 } := by
      intro t h
      simp only [hf]
      rw [hproc t, handleVal_zero_count t _ now rnd hv h]
    have main : ∀ k, k ≤ 4 →
        (f^[k] s).motorRunning = true ∧ (f^[k] s).zeroFrameCount = k := by
      intro k
      induction k with
      | zero => exact fun _ => ⟨hrun, hz0⟩
      | succ n ih =>
        intro hn
        obtain ⟨r1, r2⟩ := ih (by omega)
        have hguard : ((f^[n] s).zeroFrameCount + 1) % U8 < ZERO_FRAMES_TO_OFF := by
          rw [r2]
          simp only [U8, ZERO_FRAMES_TO_OFF]
          omega
        rw [Function.iterate_succ_apply', step_lt _ hguard]
        refine ⟨r1, ?_⟩
        show ((f^[n] s).zeroFrameCount + 1) % U8 = n + 1
        rw [r2]
        simp only [U8]
        omega
    refine ⟨main, ?_⟩
    obtain ⟨r1, r2⟩ := main 4 (le_refl 4)
    have hguard : ZERO_FRAMES_TO_OFF ≤ ((f^[4] s).zeroFrameCount + 1) % U8 := by
      rw [r2]
      simp only [U8, ZERO_FRAMES_TO_OFF]
      omega
    have h5 : f^[5] s =
        { (f^[4] s) with lastDmxMillis := now % U32, motorRunning := false,
                         motorLevel := 0, currentPwm := 0, lastOutput := 0,
                         zeroFrameCount := 0 } := by
      rw [show (5 : ℕ) = 4 + 1 from rfl, Function.iterate_succ_apply']
      calc f (f^[4] s) = onDmxFrame (f^[4] s) univ len data now rnd := by rw [hf]
        _ = _ := by rw [hproc _, handleVal_zero_stop _ _ now rnd hv hguard r1]
    rw [h5]
    exact ⟨rfl, rfl, rfl, rfl⟩
  · intro t data2 hd
    rw [onDmxFrame_processed t univ len data2 now rnd hu hlen]
    cases hrun : t.motorRunning
    · rw [handleVal_pos_start t _ now rnd hd hrun]
    · rw [handleVal_pos_running t _ now rnd hd hrun]

/-- Witness for C1: five zero frames stop the concrete running state, the
fourth does not yet. -/
theorem claim_C1_witness :
    ((fun t => onDmxFrame t 0 2 [0, 0] 7 3)^[5] witnessState).motorRunning = false ∧
    ((fun t => onDmxFrame t 0 2 [0, 0] 7 3)^[5] witnessState).zeroFrameCount = 0 ∧
    ((fun t => onDmxFrame t 0 2 [0, 0] 7 3)^[4] witnessState).motorRunning = true := by
  have h := claim_C1 witnessState 0 2 [0, 0] 7 3 rfl (by decide) (by decide)
  obtain ⟨-, -, hsc, -⟩ := h
  obtain ⟨hmain, h5a, h5b, -⟩ := hsc rfl rfl
  exact ⟨h5a, h5b, (hmain 4 (by norm_num)).1⟩

end Motor
